import Mathlib

/-!
Verification of the oda_swaid acquisition/aggregation core against its
specification.  The Python sources (src/main.py, the primary variant, and
src/backup/Main.py, the earlier backup variant) are shallowly embedded below:
timestamps (`datetime` values) are modelled as integers counting seconds,
`timedelta`s as integer durations, and JSON payload arrays as Lean lists.
Numeric metric values (`hr`, `si`, ...) are only transported by the code,
never computed with, so they are modelled as `Option Int` (`None` entries in
the JSON arrays become `none`).
-/

namespace Swaid

/-- One measurement record, as built by `fetch_data` in src/main.py
(the `Measurement` TypedDict, lines 56-66).  `session` is kept as the raw
session string: the `int(session_name)` conversion only changes the JSON
rendering of the same value and is irrelevant to the claims. -/
structure Measurement where
  session : String
  device_mac : String
  device_name : String
  timestamp : String
  hr : Option Int
  lf_hf_ratio : Option Int
  rmssd : Option Int
  sdrr : Option Int
  si : Option Int
  deriving DecidableEq, Repr

/-- A fetch window.  `stop` models the Python `end_time` (`end` is a Lean
keyword). -/
structure Window where
  start : Int
  stop : Int
  deriving DecidableEq, Repr

/-- Configured window length in seconds (`TIME_FETCH_SEC`, src/main.py line
34); kept as a parameter `d` in the definitions below so the claims can
quantify over the configured duration. -/
def TIME_FETCH_SEC : Int := 60

/-- Window computation for one cycle, src/main.py lines 348-354 of
`fetch_and_process_data`: with a fixed `current_start` the window is
`[current_start, current_start + d]`; otherwise it is anchored to the wall
clock `now` as `[now - d, now]`. -/
def computeWindow (d : Int) (current_start : Option Int) (now : Int) : Window :=
  match current_start with
  | some s => { start := s, stop := s + d }
  | none => { start := now - d, stop := now }

/-- The value of `current_start` at the i-th cycle in fixed-advance mode:
seeded from the parsed `FIXED_START` (src/main.py lines 444-452) and advanced
by `TIME_FETCH_SEC` after every cycle (line 481). -/
def currentStartAt (seed d : Int) : Nat → Int
  | 0 => seed
  | i + 1 => currentStartAt seed d i + d

/-- The window of the i-th cycle in fixed-advance mode.  `now` is the
wall-clock instant observed at cycle i; it is passed through to
`computeWindow` exactly as the loop does, so independence from the wall clock
is a theorem, not an assumption. -/
def fixedWindowAt (seed d : Int) (now : Nat → Int) (i : Nat) : Window :=
  computeWindow d (some (currentStartAt seed d i)) (now i)

/-- C3: every window, in relative mode (`current_start = none`) as well as in
fixed-advance mode (`current_start = some s`), satisfies `stop > start` and
`stop - start = d`, provided the configured fetch duration `d` is positive. -/
theorem window_invariant (d : Int) (cs : Option Int) (now : Int) (hd : 0 < d) :
    (computeWindow d cs now).stop - (computeWindow d cs now).start = d ∧
    (computeWindow d cs now).start < (computeWindow d cs now).stop := by
  cases cs <;> simp [computeWindow] <;> omega

/-- Witness for C3 at the configured duration 60, relative mode, now = 1000. -/
theorem window_invariant_witness :
    (computeWindow 60 none 1000).stop - (computeWindow 60 none 1000).start = 60 ∧
    (computeWindow 60 none 1000).start < (computeWindow 60 none 1000).stop :=
  window_invariant 60 none 1000 (by decide)

/-- C2, counterexample: the claim's per-call formula says the very first call
uses the seed as `previousStart` and returns `start = previousStart +
fetchDuration`, i.e. the first window would start at `seed + d`.  The code
uses the seed itself as the first window's start: with seed 0 and d = 60 the
first window starts at 0, not 60. -/
theorem fixed_first_window_not_seed_plus_d :
    (fixedWindowAt 0 60 (fun _ => 999) 0).start ≠ 0 + 60 := by
  decide

/-- C2, amended: in fixed-advance mode the very first window starts at the
configured seed itself; every subsequent window starts at the previous
window's start plus the fetch duration; every window ends at its start plus
the fetch duration; and the whole sequence is independent of the wall-clock
instants observed at each cycle. -/
theorem fixed_advance_windows (seed d : Int) (now now' : Nat → Int) (i : Nat) :
    (fixedWindowAt seed d now 0).start = seed ∧
    (fixedWindowAt seed d now (i + 1)).start = (fixedWindowAt seed d now i).start + d ∧
    (fixedWindowAt seed d now i).stop = (fixedWindowAt seed d now i).start + d ∧
    fixedWindowAt seed d now i = fixedWindowAt seed d now' i := by
  refine ⟨rfl, rfl, rfl, rfl⟩

/-- A decoded JSON payload from the telemetry endpoint, as consumed by
`fetch_data` (src/main.py lines 196-226).  Each metric array is read with
`data.get(key, [])` and its truthiness is tested with `data.get(key)`, so an
absent array and a present-but-empty array behave identically; both are
modelled as `[]`.  Array entries may be JSON `null`, hence `Option Int`. -/
structure Payload where
  message : Option String
  hr : List (Option Int)
  lf_hf_ratio : List (Option Int)
  rmssd : List (Option Int)
  sdrr : List (Option Int)
  si : List (Option Int)
  time : List String
  deriving DecidableEq, Repr

/-- The sentinel message checked at src/main.py line 196. -/
def noDataMessage : String := "No data found for the specified device."

/-- Six-way positional zip, modelling Python's `zip(...)` over the five metric
arrays and the timestamp array (src/main.py lines 221-225): position k of the
result pairs position k of every list, and the result stops at the shortest
of the six lists, exactly as nested two-way zips do. -/
def zip6 {α β γ δ ε ζ : Type} (as : List α) (bs : List β) (cs : List γ)
    (ds : List δ) (es : List ε) (fs : List ζ) :
    List (α × β × γ × δ × ε × ζ) :=
  as.zip (bs.zip (cs.zip (ds.zip (es.zip fs))))

theorem zip_getElem2 {α β : Type} (l₁ : List α) (l₂ : List β) (k : Nat) :
    (l₁.zip l₂)[k]? =
      match l₁[k]?, l₂[k]? with
      | some a, some b => some (a, b)
      | _, _ => none := by
  induction l₁ generalizing l₂ k with
  | nil => cases l₂ <;> simp
  | cons a l ih =>
    cases l₂ with
    | nil => simp
    | cons b l₂ =>
      cases k with
      | zero => simp [List.zip_cons_cons]
      | succ k => simpa [List.zip_cons_cons] using ih l₂ k

/-- Response interpretation of `fetch_data` after a successful decode
(src/main.py lines 196-228): the sentinel payload and a payload whose five
metric arrays are all empty yield no measurements; otherwise the six parallel
arrays are zipped positionally into measurements tagged with the device. -/
def processPayload (session device_name mac : String) (data : Payload) :
    List Measurement :=
  if data.message = some noDataMessage then []
  else if data.hr = [] ∧ data.lf_hf_ratio = [] ∧ data.rmssd = [] ∧
      data.sdrr = [] ∧ data.si = [] then []
  else
    (zip6 data.hr data.lf_hf_ratio data.rmssd data.sdrr data.si
        data.time).map fun x =>
      { session := session, device_mac := mac, device_name := device_name,
        timestamp := x.2.2.2.2.2, hr := x.1, lf_hf_ratio := x.2.1,
        rmssd := x.2.2.1, sdrr := x.2.2.2.1, si := x.2.2.2.2.1 }

theorem zip6_getElem? {α β γ δ ε ζ : Type}
    (as : List α) (bs : List β) (cs : List γ) (ds : List δ) (es : List ε)
    (fs : List ζ) (k : Nat) :
    (zip6 as bs cs ds es fs)[k]? =
      match as[k]?, bs[k]?, cs[k]?, ds[k]?, es[k]?, fs[k]? with
      | some a, some b, some c, some d, some e, some f =>
          some (a, b, c, d, e, f)
      | _, _, _, _, _, _ => none := by
  simp only [zip6, zip_getElem2]
  cases as[k]? <;> cases bs[k]? <;> cases cs[k]? <;> cases ds[k]? <;>
    cases es[k]? <;> cases fs[k]? <;> rfl

/-- How one device's fetch in `fetch_data` (src/main.py lines 184-228) ended.
`end_request_time` starts as `None` (line 167) and is set right after
`requests.get` returns (line 186), so a request that raises in transport has
no response-received time, while a fetch that fails after the response
(`raise_for_status` or JSON decoding, both caught at line 193) keeps it. -/
inductive FetchResult where
  | transportFailure
  | failedAfterResponse (reqEndTime : Int)
  | responded (data : Payload) (reqEndTime : Int)
  deriving DecidableEq, Repr

/-- Whether the fetch took the `handle_fetch_error` path (src/main.py lines
193-194): transport failure or failure after the response. -/
def isFailure : FetchResult → Bool
  | .transportFailure => true
  | .failedAfterResponse _ => true
  | .responded _ _ => false

/-- The `end_request_time` returned by `fetch_data` for this outcome. -/
def reqEnd : FetchResult → Option Int
  | .transportFailure => none
  | .failedAfterResponse t => some t
  | .responded _ t => some t

/-- The measurement list returned by `fetch_data` for this outcome: failures
return the empty list (line 125), a decoded payload is interpreted by the
code of lines 196-228. -/
def fetchMeasurements (session device_name mac : String) :
    FetchResult → List Measurement
  | .responded p _ => processPayload session device_name mac p
  | _ => []

theorem zip6_length {α β γ δ ε ζ : Type}
    (as : List α) (bs : List β) (cs : List γ) (ds : List δ) (es : List ε)
    (fs : List ζ) :
    (zip6 as bs cs ds es fs).length =
      min as.length (min bs.length (min cs.length (min ds.length
        (min es.length fs.length)))) := by
  simp [zip6, List.length_zip]

/-- C4: a decoded payload carrying the sentinel message, or one whose five
expected numeric metric arrays are all absent or empty, yields a successful
empty result: zero measurements and not an error outcome.  Any other payload
is zipped positionally across the six parallel arrays into measurements
tagged with the device, position k of the result coming from position k of
every array, so only the overlapping common leading part of the arrays yields
measurements and the number of measurements is the minimum of the six array
lengths. -/
theorem fetch_response_interpretation (sn dn mac : String) (p : Payload)
    (t : Int) :
    ((p.message = some noDataMessage ∨
        (p.hr = [] ∧ p.lf_hf_ratio = [] ∧ p.rmssd = [] ∧ p.sdrr = [] ∧
          p.si = [])) →
      fetchMeasurements sn dn mac (.responded p t) = [] ∧
        isFailure (.responded p t) = false) ∧
    (p.message ≠ some noDataMessage →
      ¬(p.hr = [] ∧ p.lf_hf_ratio = [] ∧ p.rmssd = [] ∧ p.sdrr = [] ∧
          p.si = []) →
      (fetchMeasurements sn dn mac (.responded p t)).length =
        min p.hr.length (min p.lf_hf_ratio.length (min p.rmssd.length
          (min p.sdrr.length (min p.si.length p.time.length)))) ∧
      ∀ k : Nat,
        (fetchMeasurements sn dn mac (.responded p t))[k]? =
          match p.hr[k]?, p.lf_hf_ratio[k]?, p.rmssd[k]?, p.sdrr[k]?,
              p.si[k]?, p.time[k]? with
          | some hr, some lf, some rm, some sd, some si, some ts =>
              some { session := sn, device_mac := mac, device_name := dn,
                     timestamp := ts, hr := hr, lf_hf_ratio := lf,
                     rmssd := rm, sdrr := sd, si := si }
          | _, _, _, _, _, _ => none) := by
  constructor
  · rintro (hm | he)
    · simp [fetchMeasurements, processPayload, hm, isFailure]
    · simp [fetchMeasurements, processPayload, he, isFailure]
  · intro hm he
    simp only [fetchMeasurements, processPayload, if_neg hm, if_neg he]
    constructor
    · simp [zip6_length]
    · intro k
      simp only [List.getElem?_map, zip6_getElem?]
      cases p.hr[k]? <;> cases p.lf_hf_ratio[k]? <;> cases p.rmssd[k]? <;>
        cases p.sdrr[k]? <;> cases p.si[k]? <;> cases p.time[k]? <;> simp

/-- Witness for C4: a sentinel payload yields the empty successful result,
and a two-column payload with a longer timestamp array yields exactly the
two aligned measurements. -/
theorem fetch_response_interpretation_witness :
    fetchMeasurements "s" "dev" "AA" (.responded
        { message := some noDataMessage, hr := [some 70],
          lf_hf_ratio := [some 1], rmssd := [some 30], sdrr := [some 40],
          si := [some 5], time := ["t0"] } 7) = [] ∧
      (fetchMeasurements "s" "dev" "AA" (.responded
        { message := none, hr := [some 70, some 71],
          lf_hf_ratio := [some 1, none], rmssd := [some 30, some 31],
          sdrr := [some 40, some 41], si := [some 5, some 6],
          time := ["t0", "t1", "t2"] } 7)).length = 2 := by
  constructor
  · exact ((fetch_response_interpretation "s" "dev" "AA" _ 7).1
      (Or.inl rfl)).1
  · exact ((fetch_response_interpretation "s" "dev" "AA" _ 7).2
      (by decide) (by decide)).1

/-- One entry of the `as_completed` loop in `fetch_and_process_data`
(src/main.py lines 364-384): the bracelet's identity and how its fetch ended.
The list order of the outcomes below is the completion order, which is
arbitrary. -/
structure DevOutcome where
  device_name : String
  mac : String
  res : FetchResult
  deriving DecidableEq, Repr

/-- Measurements contributed by one device, as produced by its `fetch_data`
call. -/
def devMeasurements (session : String) (o : DevOutcome) : List Measurement :=
  fetchMeasurements session o.device_name o.mac o.res

/-- The mutable state of the collection loop in `fetch_and_process_data`
(src/main.py lines 344-346): `all_measurements`, `td_data` and
`last_received`. -/
structure LoopAcc where
  all_measurements : List Measurement
  td_data : List Measurement
  last_received : Option Int
  deriving DecidableEq, Repr

/-- The `last_received` update of src/main.py lines 378-379: `if req_end and
(last_received is None or req_end > last_received)`. -/
def lastUpd (cur : Option Int) (x : Option Int) : Option Int :=
  match x, cur with
  | none, c => c
  | some t, none => some t
  | some t, some c => if t > c then some t else some c

/-- One iteration of the `as_completed` loop (src/main.py lines 364-384):
nonempty measurement lists are appended to both `all_measurements` and
`td_data` (lines 372-376), and `last_received` is updated from the device's
response-received time (lines 378-381). -/
def stepOutcome (session : String) (acc : LoopAcc) (o : DevOutcome) : LoopAcc :=
  let measurements := devMeasurements session o
  { all_measurements :=
      if measurements = [] then acc.all_measurements
      else acc.all_measurements ++ measurements,
    td_data :=
      if measurements = [] then acc.td_data
      else acc.td_data ++ measurements,
    last_received := lastUpd acc.last_received (reqEnd o.res) }

/-- The collection loop of `fetch_and_process_data`, started from empty
accumulators (src/main.py lines 344-346, 364-384). -/
def processOutcomes (session : String) (outs : List DevOutcome) : LoopAcc :=
  outs.foldl (stepOutcome session) ⟨[], [], none⟩

/-- The cycle's measurement batch (`all_measurements`). -/
def cycleMeasurements (session : String) (outs : List DevOutcome) :
    List Measurement :=
  (processOutcomes session outs).all_measurements

/-- The snapshot payload (`td_data`) returned by `fetch_and_process_data` and
written to `td_data.json` by `save_data`. -/
def tdData (session : String) (outs : List DevOutcome) : List Measurement :=
  (processOutcomes session outs).td_data

/-- The reported last-heard-from time (src/main.py lines 385-389):
`last_received` if any response was seen, otherwise the window's end. -/
def lastReceivedFinal (session : String) (outs : List DevOutcome)
    (endTime : Int) : Int :=
  ((processOutcomes session outs).last_received).getD endTime

/-- Whether the fallback of src/main.py lines 385-388 fired, i.e. the
explicitly logged server-unresponsive condition. -/
def serverUnresponsive (session : String) (outs : List DevOutcome) : Bool :=
  ((processOutcomes session outs).last_received).isNone

theorem stepOutcome_all (s : String) (acc : LoopAcc) (o : DevOutcome) :
    (stepOutcome s acc o).all_measurements =
      acc.all_measurements ++ devMeasurements s o := by
  simp only [stepOutcome]
  split <;> simp [*]

theorem stepOutcome_td (s : String) (acc : LoopAcc) (o : DevOutcome) :
    (stepOutcome s acc o).td_data = acc.td_data ++ devMeasurements s o := by
  simp only [stepOutcome]
  split <;> simp [*]

theorem foldl_step_all (s : String) (outs : List DevOutcome) (acc : LoopAcc) :
    (outs.foldl (stepOutcome s) acc).all_measurements =
      acc.all_measurements ++ (outs.map (devMeasurements s)).flatten := by
  induction outs generalizing acc with
  | nil => simp
  | cons o outs ih =>
    simp [List.foldl_cons, ih, stepOutcome_all, List.append_assoc]

theorem foldl_step_td (s : String) (outs : List DevOutcome) (acc : LoopAcc) :
    (outs.foldl (stepOutcome s) acc).td_data =
      acc.td_data ++ (outs.map (devMeasurements s)).flatten := by
  induction outs generalizing acc with
  | nil => simp
  | cons o outs ih =>
    simp [List.foldl_cons, ih, stepOutcome_td, List.append_assoc]

theorem foldl_step_last (s : String) (outs : List DevOutcome) (acc : LoopAcc) :
    (outs.foldl (stepOutcome s) acc).last_received =
      (outs.map (fun o => reqEnd o.res)).foldl lastUpd acc.last_received := by
  induction outs generalizing acc with
  | nil => simp
  | cons o outs ih => simp [List.foldl_cons, ih, stepOutcome]

theorem foldl_lastUpd_none (l : List (Option Int)) (c : Option Int)
    (h : ∀ x ∈ l, x = none) : l.foldl lastUpd c = c := by
  induction l generalizing c with
  | nil => rfl
  | cons x l ih =>
    have hx : x = none := h x (List.mem_cons_self x l)
    subst hx
    exact ih c fun y hy => h y (List.mem_cons_of_mem _ hy)

theorem lastUpd_some (c : Option Int) (t : Int) :
    ∃ r, lastUpd c (some t) = some r ∧ t ≤ r := by
  cases c with
  | none => exact ⟨t, rfl, le_refl t⟩
  | some c₀ =>
    by_cases h : t > c₀
    · exact ⟨t, by simp [lastUpd, h], le_refl t⟩
    · exact ⟨c₀, by simp [lastUpd, h], le_of_not_lt h⟩

theorem foldl_lastUpd_ge (l : List (Option Int)) (c : Option Int) (v : Int)
    (h : c = some v) : ∃ r, l.foldl lastUpd c = some r ∧ v ≤ r := by
  induction l generalizing c v with
  | nil => exact ⟨v, by simp [h], le_refl v⟩
  | cons x l ih =>
    subst h
    cases x with
    | none => exact ih (some v) v rfl
    | some t =>
      by_cases hgt : t > v
      · have h1 : lastUpd (some v) (some t) = some t := by simp [lastUpd, hgt]
        obtain ⟨r, hr, hle⟩ := ih _ t h1
        exact ⟨r, by simpa [h1] using hr, le_trans (le_of_lt hgt) hle⟩
      · have h1 : lastUpd (some v) (some t) = some v := by simp [lastUpd, hgt]
        obtain ⟨r, hr, hle⟩ := ih _ v h1
        exact ⟨r, by simpa using hr, hle⟩

theorem foldl_lastUpd_mem (l : List (Option Int)) (c : Option Int) (t : Int)
    (hx : some t ∈ l) : ∃ r, l.foldl lastUpd c = some r ∧ t ≤ r := by
  induction l generalizing c with
  | nil => simp at hx
  | cons y l ih =>
    rcases List.mem_cons.mp hx with hy | hmem
    · subst hy
      obtain ⟨r₀, hr₀, htr₀⟩ := lastUpd_some c t
      obtain ⟨r, hr, hle⟩ := foldl_lastUpd_ge l (lastUpd c (some t)) r₀ hr₀
      exact ⟨r, by simpa using hr, le_trans htr₀ hle⟩
    · exact ih (lastUpd c y) hmem

theorem foldl_lastUpd_attained (l : List (Option Int)) :
    ∀ c r, l.foldl lastUpd c = some r → c = some r ∨ some r ∈ l := by
  induction l with
  | nil => intro c r h; exact Or.inl h
  | cons x l ih =>
    intro c r h
    rcases ih (lastUpd c x) r (by simpa using h) with h' | h'
    · cases x with
      | none => exact Or.inl h'
      | some t =>
        cases c with
        | none =>
          have ht : some t = some r := by simpa [lastUpd] using h'
          exact Or.inr (by rw [← ht]; exact List.mem_cons_self _ _)
        | some c₀ =>
          by_cases hgt : t > c₀
          · have ht : some t = some r := by simpa [lastUpd, hgt] using h'
            exact Or.inr (by rw [← ht]; exact List.mem_cons_self _ _)
          · have hc : some c₀ = some r := by simpa [lastUpd, hgt] using h'
            exact Or.inl hc
    · exact Or.inr (List.mem_cons_of_mem _ h')

/-- C5, counterexample: a cycle with a single device whose fetch failed after
the response was received (HTTP error or undecodable body at response time 5)
is a cycle in which every device failed, yet the reported last-heard-from
time is 5, the failed fetch's response-received time, not the window's end
100 as the claim requires. -/
theorem last_heard_counterexample :
    isFailure (FetchResult.failedAfterResponse 5) = true ∧
    lastReceivedFinal "s" [⟨"dev", "AA", FetchResult.failedAfterResponse 5⟩]
      100 = 5 ∧
    (5 : Int) ≠ 100 := by
  refine ⟨rfl, rfl, by decide⟩

/-- C5, amended: the reported last-heard-from time is the maximum
response-received timestamp over the cycle's fetches that received a response
at all (an upper bound that is attained by some fetch); only when no fetch
received any response — every device failed in transport, before a response —
does it fall back to the window's end, with the server-unresponsive condition
flagged explicitly. -/
theorem last_heard_from (s : String) (outs : List DevOutcome) (endT : Int) :
    ((∀ o ∈ outs, reqEnd o.res = none) →
      lastReceivedFinal s outs endT = endT ∧
        serverUnresponsive s outs = true) ∧
    (∀ o ∈ outs, ∀ t, reqEnd o.res = some t →
      t ≤ lastReceivedFinal s outs endT) ∧
    ((∃ o ∈ outs, reqEnd o.res ≠ none) →
      serverUnresponsive s outs = false ∧
        ∃ o ∈ outs, reqEnd o.res = some (lastReceivedFinal s outs endT)) := by
  have hfold : (processOutcomes s outs).last_received =
      (outs.map (fun o => reqEnd o.res)).foldl lastUpd none :=
    foldl_step_last s outs ⟨[], [], none⟩
  refine ⟨?_, ?_, ?_⟩
  · intro hall
    have h0 : (outs.map (fun o => reqEnd o.res)).foldl lastUpd none = none := by
      refine foldl_lastUpd_none _ _ ?_
      intro x hx
      obtain ⟨o, ho, rfl⟩ := List.mem_map.mp hx
      exact hall o ho
    constructor
    · simp [lastReceivedFinal, hfold, h0]
    · simp [serverUnresponsive, hfold, h0]
  · intro o ho t ht
    have hmem : some t ∈ outs.map (fun o => reqEnd o.res) :=
      List.mem_map.mpr ⟨o, ho, ht⟩
    obtain ⟨r, hr, htr⟩ := foldl_lastUpd_mem _ none t hmem
    simpa [lastReceivedFinal, hfold, hr] using htr
  · rintro ⟨o, ho, hne⟩
    obtain ⟨t, ht⟩ := Option.ne_none_iff_exists'.mp hne
    have hmem : some t ∈ outs.map (fun o => reqEnd o.res) :=
      List.mem_map.mpr ⟨o, ho, ht⟩
    obtain ⟨r, hr, _⟩ := foldl_lastUpd_mem _ none t hmem
    refine ⟨by simp [serverUnresponsive, hfold, hr], ?_⟩
    rcases foldl_lastUpd_attained _ none r hr with h | h
    · exact absurd h.symm (by simp)
    · obtain ⟨o', ho', ho'r⟩ := List.mem_map.mp h
      exact ⟨o', ho', by simp [lastReceivedFinal, hfold, hr, ho'r]⟩

/-- Witness for C5 (amended): one device whose only response arrived at time
7 and one device that failed in transport; the reported time is 7, bounds the
single response time, and was produced by a responding fetch; with only
transport failures the fallback to the window end 100 fires and is flagged. -/
theorem last_heard_from_witness :
    lastReceivedFinal "s" [⟨"d", "AA", FetchResult.transportFailure⟩] 100 =
        100 ∧
    (7 : Int) ≤ lastReceivedFinal "s"
        [⟨"d", "AA", FetchResult.failedAfterResponse 7⟩,
         ⟨"e", "BB", FetchResult.transportFailure⟩] 100 ∧
    serverUnresponsive "s"
        [⟨"d", "AA", FetchResult.failedAfterResponse 7⟩,
         ⟨"e", "BB", FetchResult.transportFailure⟩] = false := by
  refine ⟨?_, ?_, ?_⟩
  · exact ((last_heard_from "s" [⟨"d", "AA", FetchResult.transportFailure⟩]
      100).1 (by intro o ho; simp at ho; subst ho; rfl)).1
  · exact (last_heard_from "s" _ 100).2.1
      ⟨"d", "AA", FetchResult.failedAfterResponse 7⟩ (by simp) 7 rfl
  · exact ((last_heard_from "s" _ 100).2.2
      ⟨⟨"d", "AA", FetchResult.failedAfterResponse 7⟩, by simp, by simp [reqEnd]⟩).1

/-- C6: a transport or decode failure of one device's fetch yields the empty
measurement list for that device, and the cycle's measurement batch and
snapshot payload over a completion order containing the failed device are
exactly those of the other devices, unchanged — the failure neither blocks
the other devices' successful outcomes nor aborts the aggregation, which is a
total function of the outcome list. -/
theorem failure_isolated (s : String) (xs ys : List DevOutcome)
    (f : DevOutcome) (hf : isFailure f.res = true) :
    devMeasurements s f = [] ∧
    cycleMeasurements s (xs ++ f :: ys) =
      cycleMeasurements s xs ++ cycleMeasurements s ys ∧
    tdData s (xs ++ f :: ys) = tdData s xs ++ tdData s ys := by
  have hdev : devMeasurements s f = [] := by
    cases hres : f.res with
    | transportFailure => simp [devMeasurements, fetchMeasurements, hres]
    | failedAfterResponse t => simp [devMeasurements, fetchMeasurements, hres]
    | responded p t => simp [isFailure, hres] at hf
  have hall : ∀ zs, cycleMeasurements s zs =
      (zs.map (devMeasurements s)).flatten := fun zs => by
    simpa using foldl_step_all s zs ⟨[], [], none⟩
  have htd : ∀ zs, tdData s zs = (zs.map (devMeasurements s)).flatten :=
    fun zs => by simpa using foldl_step_td s zs ⟨[], [], none⟩
  refine ⟨hdev, ?_, ?_⟩
  · simp [hall, hdev]
  · simp [htd, hdev]

/-- Witness for C6: device B's decode failure between successful devices A
and C leaves A's and C's measurements exactly in place. -/
theorem failure_isolated_witness :
    cycleMeasurements "s"
        [⟨"A", "AA", FetchResult.responded
            { message := none, hr := [some 70], lf_hf_ratio := [none],
              rmssd := [none], sdrr := [none], si := [none],
              time := ["t0"] } 3⟩,
         ⟨"B", "BB", FetchResult.failedAfterResponse 4⟩,
         ⟨"C", "CC", FetchResult.responded
            { message := some noDataMessage, hr := [], lf_hf_ratio := [],
              rmssd := [], sdrr := [], si := [], time := [] } 5⟩] =
      cycleMeasurements "s"
        [⟨"A", "AA", FetchResult.responded
            { message := none, hr := [some 70], lf_hf_ratio := [none],
              rmssd := [none], sdrr := [none], si := [none],
              time := ["t0"] } 3⟩] ++
      cycleMeasurements "s"
        [⟨"C", "CC", FetchResult.responded
            { message := some noDataMessage, hr := [], lf_hf_ratio := [],
              rmssd := [], sdrr := [], si := [], time := [] } 5⟩] :=
  (failure_isolated "s"
    [⟨"A", "AA", FetchResult.responded
        { message := none, hr := [some 70], lf_hf_ratio := [none],
          rmssd := [none], sdrr := [none], si := [none],
          time := ["t0"] } 3⟩]
    [⟨"C", "CC", FetchResult.responded
        { message := some noDataMessage, hr := [], lf_hf_ratio := [],
          rmssd := [], sdrr := [], si := [], time := [] } 5⟩]
    ⟨"B", "BB", FetchResult.failedAfterResponse 4⟩ rfl).2.1

/-- C1, counterexample: in src/main.py the published snapshot (`td_data`,
written verbatim to td_data.json by `save_data`) is extended with every
measurement of every device (line 376), not collapsed to one entry per
device.  A single device whose response yields two measurements produces a
snapshot with two entries for that device, so the snapshot does not contain
exactly one entry per device that produced at least one measurement. -/
theorem snapshot_counterexample :
    (devMeasurements "s" ⟨"dev", "AA", FetchResult.responded
        { message := none, hr := [some 1, some 2],
          lf_hf_ratio := [none, none], rmssd := [none, none],
          sdrr := [none, none], si := [none, none],
          time := ["t0", "t1"] } 7⟩).length = 2 ∧
    ((tdData "s" [⟨"dev", "AA", FetchResult.responded
        { message := none, hr := [some 1, some 2],
          lf_hf_ratio := [none, none], rmssd := [none, none],
          sdrr := [none, none], si := [none, none],
          time := ["t0", "t1"] } 7⟩]).filter
      (fun m => m.device_mac == "AA")).length ≠ 1 := by
  constructor
  · rfl
  · decide

/-- Insertion into a Python dict modelled as an association list with
in-place overwrite: `td_data[device_id] = ...` in src/backup/Main.py line
136. -/
def dictInsert {α : Type} (k : String) (v : α) :
    List (String × α) → List (String × α)
  | [] => [(k, v)]
  | (k', v') :: rest =>
      if k' = k then (k, v) :: rest else (k', v') :: dictInsert k v rest

/-- Key lookup in the association-list dict. -/
def dictLookup {α : Type} (k : String) : List (String × α) → Option α
  | [] => none
  | (k', v) :: rest => if k' = k then some v else dictLookup k rest

/-- One iteration of the per-bracelet loop of src/backup/Main.py lines
129-136: a falsy `swaid_id` (absent or empty) is skipped; a device with a
nonempty fetched list `m` extends `all_measurements` and stores its last
element `m[-1]` under its id; a device with an empty list changes nothing.
The element type is generic: the loop never inspects the measurements. -/
def buStep {α : Type} (acc : List α × List (String × α))
    (r : Option String × List α) : List α × List (String × α) :=
  match r.1 with
  | none => acc
  | some id =>
      if id = "" then acc
      else
        match r.2.getLast? with
        | none => acc
        | some lastM => (acc.1 ++ r.2, dictInsert id lastM acc.2)

/-- The whole per-cycle loop of src/backup/Main.py lines 127-136, started
from an empty batch and an empty `td_data` dict.  Input: each bracelet's
`swaid_id` and the list returned by its `fetch_data` call, in registry
order. -/
def buAggregate {α : Type} (results : List (Option String × List α)) :
    List α × List (String × α) :=
  results.foldl buStep ([], [])

theorem dictInsert_cons {α : Type} (k : String) (v : α) (a : String) (b : α)
    (rest : List (String × α)) :
    dictInsert k v ((a, b) :: rest) =
      if a = k then (k, v) :: rest else (a, b) :: dictInsert k v rest := rfl

theorem dictLookup_cons {α : Type} (k : String) (a : String) (b : α)
    (rest : List (String × α)) :
    dictLookup k ((a, b) :: rest) =
      if a = k then some b else dictLookup k rest := rfl

theorem dictLookup_dictInsert_self {α : Type} (k : String) (v : α)
    (l : List (String × α)) : dictLookup k (dictInsert k v l) = some v := by
  induction l with
  | nil => simp [dictInsert, dictLookup]
  | cons p rest ih =>
    obtain ⟨a, b⟩ := p
    by_cases h : a = k
    · rw [dictInsert_cons, if_pos h, dictLookup_cons, if_pos rfl]
    · rw [dictInsert_cons, if_neg h, dictLookup_cons, if_neg h]
      exact ih

theorem dictLookup_dictInsert_ne {α : Type} (k k' : String) (v : α)
    (l : List (String × α)) (h : k' ≠ k) :
    dictLookup k (dictInsert k' v l) = dictLookup k l := by
  induction l with
  | nil => simp [dictInsert, dictLookup, h]
  | cons p rest ih =>
    obtain ⟨a, b⟩ := p
    by_cases ha : a = k'
    · rw [dictInsert_cons, if_pos ha, dictLookup_cons, dictLookup_cons,
        if_neg h, if_neg (show ¬a = k from fun hak => h (ha.symm.trans hak))]
    · rw [dictInsert_cons, if_neg ha, dictLookup_cons, dictLookup_cons]
      by_cases hak : a = k
      · rw [if_pos hak, if_pos hak]
      · rw [if_neg hak, if_neg hak]
        exact ih

theorem dictInsert_mem_keys {α : Type} (k x : String) (v : α)
    (l : List (String × α)) :
    x ∈ (dictInsert k v l).map Prod.fst ↔
      x = k ∨ x ∈ l.map Prod.fst := by
  induction l with
  | nil => simp [dictInsert]
  | cons p rest ih =>
    obtain ⟨a, b⟩ := p
    by_cases ha : a = k
    · rw [dictInsert_cons, if_pos ha]
      subst ha
      simp only [List.map_cons, List.mem_cons]
      tauto
    · rw [dictInsert_cons, if_neg ha]
      simp only [List.map_cons, List.mem_cons, ih]
      tauto

theorem dictInsert_keys_nodup {α : Type} (k : String) (v : α)
    (l : List (String × α)) (h : (l.map Prod.fst).Nodup) :
    ((dictInsert k v l).map Prod.fst).Nodup := by
  induction l with
  | nil => simp [dictInsert]
  | cons p rest ih =>
    obtain ⟨a, b⟩ := p
    simp only [List.map_cons, List.nodup_cons] at h
    by_cases ha : a = k
    · rw [dictInsert_cons, if_pos ha]
      subst ha
      simp only [List.map_cons, List.nodup_cons]
      exact ⟨h.1, h.2⟩
    · rw [dictInsert_cons, if_neg ha]
      simp only [List.map_cons, List.nodup_cons]
      refine ⟨?_, ih h.2⟩
      intro hmem
      rcases (dictInsert_mem_keys k a v rest).mp hmem with h' | h'
      · exact ha h'
      · exact h.1 h'

theorem buStep_none {α : Type} (acc : List α × List (String × α))
    (l : List α) : buStep acc (none, l) = acc := rfl

theorem buStep_some {α : Type} (acc : List α × List (String × α))
    (k : String) (l : List α) :
    buStep acc (some k, l) =
      if k = "" then acc
      else
        match l.getLast? with
        | none => acc
        | some lastM => (acc.1 ++ l, dictInsert k lastM acc.2) := rfl

theorem buStep_lookup_other {α : Type} (acc : List α × List (String × α))
    (oid : Option String) (l : List α) (id : String) (h : oid ≠ some id) :
    dictLookup id (buStep acc (oid, l)).2 = dictLookup id acc.2 := by
  cases oid with
  | none => rfl
  | some k =>
    have hk : k ≠ id := fun he => h (by rw [he])
    rw [buStep_some]
    by_cases hke : k = ""
    · rw [if_pos hke]
    · rw [if_neg hke]
      cases hl : l.getLast? with
      | none => simp only [hl]
      | some m =>
        simp only [hl]
        exact dictLookup_dictInsert_ne id k m acc.2 hk

theorem buFold_lookup_skip {α : Type} (results : List (Option String × List α))
    (acc : List α × List (String × α)) (id : String)
    (hid : ∀ ms, (some id, ms) ∉ results) :
    dictLookup id (results.foldl buStep acc).2 = dictLookup id acc.2 := by
  induction results generalizing acc with
  | nil => rfl
  | cons r rest ih =>
    obtain ⟨oid, l⟩ := r
    have hrest : ∀ ms, (some id, ms) ∉ rest :=
      fun ms hm => hid ms (List.mem_cons_of_mem _ hm)
    have hoid : oid ≠ some id := by
      intro h
      subst h
      exact hid l (List.mem_cons_self _ _)
    rw [List.foldl_cons, ih _ hrest, buStep_lookup_other acc oid l id hoid]

theorem buFold_lookup_mem {α : Type} (results : List (Option String × List α))
    (acc : List α × List (String × α)) (id : String) (ms : List α)
    (hnd : (results.map Prod.fst).Nodup)
    (hmem : (some id, ms) ∈ results) (hne : id ≠ "") :
    dictLookup id (results.foldl buStep acc).2 =
      match ms.getLast? with
      | none => dictLookup id acc.2
      | some m => some m := by
  induction results generalizing acc with
  | nil => simp at hmem
  | cons r rest ih =>
    obtain ⟨oid, l⟩ := r
    simp only [List.map_cons, List.nodup_cons] at hnd
    rw [List.foldl_cons]
    rcases List.mem_cons.mp hmem with heq | hmem'
    · obtain ⟨h1, h2⟩ := Prod.mk.injEq _ _ _ _ ▸ heq.symm
      subst h2
      have hrest : ∀ ms', (some id, ms') ∉ rest := by
        intro ms' hm'
        exact (h1 ▸ hnd.1) (List.mem_map.mpr ⟨(some id, ms'), hm', rfl⟩)
      rw [buFold_lookup_skip rest _ id hrest, h1, buStep_some, if_neg hne]
      cases hl : l.getLast? with
      | none => simp only [hl]
      | some m =>
        simp only [hl]
        exact dictLookup_dictInsert_self id m acc.2
    · have hoid : oid ≠ some id := by
        intro h
        subst h
        exact hnd.1 (List.mem_map.mpr ⟨(some id, ms), hmem', rfl⟩)
      rw [ih (buStep acc (oid, l)) hnd.2 hmem',
        buStep_lookup_other acc oid l id hoid]

theorem buFold_keys_nodup {α : Type} (results : List (Option String × List α))
    (acc : List α × List (String × α)) (h : (acc.2.map Prod.fst).Nodup) :
    (((results.foldl buStep acc).2).map Prod.fst).Nodup := by
  induction results generalizing acc with
  | nil => exact h
  | cons r rest ih =>
    rw [List.foldl_cons]
    apply ih
    obtain ⟨oid, l⟩ := r
    cases oid with
    | none => exact h
    | some k =>
      rw [buStep_some]
      by_cases hk : k = ""
      · rwa [if_pos hk]
      · rw [if_neg hk]
        cases hl : l.getLast? with
        | none => simpa only [hl] using h
        | some m =>
          simp only [hl]
          exact dictInsert_keys_nodup k m acc.2 h

/-- C1, amended: the two source variants publish different snapshots.  In
src/main.py the snapshot (`td_data`) is the full flat list of the cycle's
measurements, identical to the cycle batch, with every measurement of every
responding device.  In src/backup/Main.py the snapshot is a dict with at most
one entry per device id: for every registry entry with a truthy id (under
distinct registry ids), the entry under that id is exactly the last element
of that device's own fetched list — present iff the device produced at least
one measurement this cycle — and ids never fetched are absent. -/
theorem snapshot_semantics {α : Type} (s : String) (outs : List DevOutcome)
    (results : List (Option String × List α))
    (hnd : (results.map Prod.fst).Nodup) :
    tdData s outs = cycleMeasurements s outs ∧
    (((buAggregate results).2).map Prod.fst).Nodup ∧
    (∀ id ms, (some id, ms) ∈ results → id ≠ "" →
      dictLookup id (buAggregate results).2 = ms.getLast?) ∧
    (∀ id, (∀ ms, (some id, ms) ∉ results) →
      dictLookup id (buAggregate results).2 = none) := by
  refine ⟨?_, ?_, ?_, ?_⟩
  · rw [tdData, cycleMeasurements, processOutcomes, foldl_step_td,
      foldl_step_all]
  · exact buFold_keys_nodup results ([], []) (by simp)
  · intro id ms hmem hne
    have h := buFold_lookup_mem results ([], []) id ms hnd hmem hne
    rw [buAggregate]
    cases hl : ms.getLast? with
    | none => simpa only [hl, dictLookup] using h
    | some m => simpa only [hl] using h
  · intro id hid
    exact (buFold_lookup_skip results ([], []) id hid).trans rfl

/-- Witness for C1 (amended), backup variant: device A fetched [1, 2] and
device B fetched nothing; the snapshot maps A to 2 (its last measurement)
and has no entry for B. -/
theorem snapshot_semantics_witness :
    dictLookup "A"
        (buAggregate [(some "A", [1, 2]), (some "B", ([] : List Nat))]).2 =
      some 2 ∧
    dictLookup "B"
        (buAggregate [(some "A", [1, 2]), (some "B", ([] : List Nat))]).2 =
      none := by
  have h := snapshot_semantics (α := Nat) "s" []
    [(some "A", [1, 2]), (some "B", [])] (by decide)
  constructor
  · simpa using h.2.2.1 "A" [1, 2] (by simp) (by decide)
  · simpa using h.2.2.1 "B" [] (by simp) (by decide)

/-- The in-memory history update of `save_data` (src/main.py lines 413-414):
`history.extend(new_measurements)` runs only when the cycle produced
measurements, and extending by nothing changes nothing. -/
def saveDataHistory (history new : List Measurement) : List Measurement :=
  if new = [] then history else history ++ new

/-- The file writes performed by one `save_data` call (src/main.py lines
413-424): the first component is the content written to the history artifact
(measurements.json), `none` when the write is skipped because the cycle was
empty (the skip is logged as a warning at line 422, not an error); the second
is the content written to the snapshot artifact (td_data.json), written on
every call. -/
def saveDataWrites (history new td : List Measurement) :
    Option (List Measurement) × List Measurement :=
  (if new = [] then none else some (history ++ new), td)

/-- The in-memory history after the per-cycle batches have been saved in
cycle order, starting from the history loaded at startup (src/main.py lines
453-459, 476-477). -/
def historyAfter (init : List Measurement)
    (batches : List (List Measurement)) : List Measurement :=
  batches.foldl saveDataHistory init

theorem saveDataHistory_eq_append (history new : List Measurement) :
    saveDataHistory history new = history ++ new := by
  rw [saveDataHistory]
  split
  · simp [*]
  · rfl

/-- C7: after k cycles the in-memory history is exactly the history loaded at
startup followed by each cycle's batch appended in cycle order, so its length
is the initial length plus the sum of the cycles' measurement counts; every
entry of the initial history and of every batch survives verbatim, so nothing
is removed, merged or deduplicated. -/
theorem history_append_only (init : List Measurement)
    (batches : List (List Measurement)) :
    historyAfter init batches = init ++ batches.flatten ∧
    (historyAfter init batches).length =
      init.length + (batches.map List.length).sum := by
  have h : historyAfter init batches = init ++ batches.flatten := by
    induction batches generalizing init with
    | nil => simp [historyAfter]
    | cons b bs ih =>
      rw [historyAfter, List.foldl_cons, saveDataHistory_eq_append,
        ← historyAfter, ih]
      simp
  exact ⟨h, by simp [h]⟩

/-- C8: a cycle that produced zero measurements does not rewrite the history
artifact (no write happens, so its on-disk contents stay unchanged), a cycle
with measurements rewrites it with the extended history, and the snapshot
artifact is rewritten with the cycle's snapshot payload on every cycle
regardless of whether any device produced data. -/
theorem persistence_effects (history new td : List Measurement) :
    (new = [] → (saveDataWrites history new td).1 = none) ∧
    (new ≠ [] → (saveDataWrites history new td).1 = some (history ++ new)) ∧
    (saveDataWrites history new td).2 = td := by
  refine ⟨fun h => ?_, fun h => ?_, rfl⟩
  · simp [saveDataWrites, h]
  · simp [saveDataWrites, h]

/-- Witness for C8: an empty cycle skips the history write but still writes
the snapshot; a nonempty cycle writes both. -/
theorem persistence_effects_witness :
    (saveDataWrites [] [] []).1 = none ∧ (saveDataWrites [] [] []).2 = [] :=
  ⟨(persistence_effects [] [] []).1 rfl, (persistence_effects [] [] []).2.2⟩

/-- How the single call to `main()` inside the `if __name__` driver of
src/main.py (lines 499-509) terminates.  `sys.exit(c)` raises `SystemExit c`,
which is not an `Exception`, so the driver's `except Exception` does not
catch it; `backupAlready` records whether `backup_files()` already ran before
the exit was raised. -/
inductive MainOutcome where
  | systemExit (code : Nat) (backupAlready : Bool)
  | raisedException
  deriving DecidableEq, Repr

/-- The driver of src/main.py lines 504-509 around the terminating event:
a propagating `SystemExit` ends the process with its code and whatever backup
was already made; an ordinary `Exception` is caught, logged, `backup_files()`
runs, and the process exits 1.  Result: (backup performed, exit code). -/
def topLevelRun : MainOutcome → Bool × Nat
  | .systemExit c b => (b, c)
  | .raisedException => (true, 1)

/-- A voluntary interrupt: `signal_handler` (src/main.py lines 492-496) runs
`backup_files()` and then `sys.exit(0)`. -/
def interruptOutcome : MainOutcome := .systemExit 0 true

/-- A registry-load failure: `load_bracelets` (src/main.py lines 249-251)
logs the error and calls `sys.exit(1)` directly, performing no backup. -/
def registryFailureOutcome : MainOutcome := .systemExit 1 false

/-- Any other unhandled fatal error inside `main()` reaches the driver's
`except Exception` handler (src/main.py lines 506-509). -/
def fatalErrorOutcome : MainOutcome := .raisedException

/-- C9, counterexample: a registry-load failure is one of the claim's fatal
non-zero exits, yet the process performs no backup on it: `sys.exit(1)` in
`load_bracelets` raises `SystemExit`, which `except Exception` does not
catch, so `backup_files()` never runs on that path. -/
theorem exit_codes_counterexample :
    (topLevelRun registryFailureOutcome).2 ≠ 0 ∧
    (topLevelRun registryFailureOutcome).1 = false := by
  refine ⟨by decide, rfl⟩

/-- C9, amended: the process exits 0 on a voluntary interrupt after the
backup has been performed, and exits 1 both on registry-load failure and on
an unhandled fatal error; an unhandled fatal error triggers a best-effort
backup before exit, but a registry-load failure exits without performing a
backup. -/
theorem exit_codes :
    topLevelRun interruptOutcome = (true, 0) ∧
    topLevelRun registryFailureOutcome = (false, 1) ∧
    topLevelRun fatalErrorOutcome = (true, 1) := by
  refine ⟨rfl, rfl, rfl⟩

/-- One entry of bracelets.json as inspected by `load_bracelets` (src/main.py
lines 237-248): `b.get("mac_address")` is truthy only for a present nonempty
string, and `b.get("process", False) is True` holds only when the key is
present and is exactly `True` (modelled as `some true`). -/
structure BraceletEntry where
  mac_address : Option String
  process : Option Bool
  deriving DecidableEq, Repr

/-- Truthiness of `b.get("mac_address")`. -/
def macTruthy : Option String → Bool
  | none => false
  | some s => !(s == "")

/-- The filter predicate of src/main.py line 241. -/
def entryEnabled (b : BraceletEntry) : Bool :=
  macTruthy b.mac_address && (b.process == some true)

/-- The filtering done by `load_bracelets` on a successfully parsed registry
(src/main.py lines 240-242). -/
def load_bracelets_filter (bs : List BraceletEntry) : List BraceletEntry :=
  bs.filter entryEnabled

/-- The startup check of `main` (src/main.py lines 440-443): an empty
filtered registry exits the process with code 1 before the first cycle;
otherwise the loop runs with the filtered registry. -/
def startupBracelets (bs : List BraceletEntry) :
    Except Nat (List BraceletEntry) :=
  if load_bracelets_filter bs = [] then Except.error 1
  else Except.ok (load_bracelets_filter bs)

/-- C10: a registry that parses but contains no entry with both a nonempty
mac_address and `process` exactly `true` makes the process exit before the
first cycle with the same non-zero code (1) that a missing or unreadable
registry produces in `load_bracelets`. -/
theorem empty_registry_exits (bs : List BraceletEntry)
    (h : ∀ b ∈ bs,
      ¬(macTruthy b.mac_address = true ∧ b.process = some true)) :
    startupBracelets bs =
      Except.error (topLevelRun registryFailureOutcome).2 ∧
    (topLevelRun registryFailureOutcome).2 ≠ 0 := by
  have hfil : load_bracelets_filter bs = [] := by
    rw [load_bracelets_filter, List.filter_eq_nil_iff]
    intro b hb
    have hb' := h b hb
    rw [entryEnabled]
    intro hcontra
    rcases Bool.and_eq_true _ _ |>.mp hcontra with ⟨h1, h2⟩
    exact hb' ⟨h1, by simpa using h2⟩
  refine ⟨?_, by decide⟩
  rw [startupBracelets, if_pos hfil]
  rfl

/-- Witness for C10: a registry with an empty-mac entry, a disabled entry, a
mac-less entry and an entry with a non-boolean-true flag exits with code 1. -/
theorem empty_registry_exits_witness :
    startupBracelets
        [⟨some "", some true⟩, ⟨some "AA:BB", some false⟩,
         ⟨none, some true⟩, ⟨some "CC:DD", none⟩] =
      Except.error 1 :=
  (empty_registry_exits
    [⟨some "", some true⟩, ⟨some "AA:BB", some false⟩,
     ⟨none, some true⟩, ⟨some "CC:DD", none⟩] (by decide)).1

end Swaid
